import Mathlib

/-!
Verification of the ChoibenAssist backend's prompt-orchestration and
error-classification layer, shallowly embedded from the Python source
(`app/services/gemini_service.py`, `app/services/scrapbox_service.py`,
`app/dependencies.py`, `app/core/exceptions.py`).

Strings are modelled as `List Char` (or Lean `String` wrapping them); Python's
`str.lower` is modelled as ASCII case folding, matching its behaviour on the
ASCII pattern constants the source uses.  Regular-expression searches from the
source are hand-compiled to explicit scanning functions with Python `re`
semantics (leftmost match, non-greedy vs greedy as in the pattern, `.` not
matching a newline).
-/

namespace ChoibenAssist

/-- Python `str.lower`, restricted to ASCII case folding (the source only
matches ASCII pattern constants). -/
def pyLower (s : List Char) : List Char := s.map Char.toLower

/-- Python whitespace for `str.strip`, i.e. the characters `str.isspace`
accepts: ASCII tab through carriage return and space, the file/group/record/
unit separators, next line, no-break space, Ogham space mark, the U+2000
space block, line and paragraph separators, narrow no-break space, medium
mathematical space, and the ideographic space U+3000. -/
def isPySpace (c : Char) : Bool :=
  (0x09 ≤ c.toNat && c.toNat ≤ 0x0D) || (0x1C ≤ c.toNat && c.toNat ≤ 0x1F) ||
  c = ' ' || c.toNat = 0x85 || c.toNat = 0xA0 || c.toNat = 0x1680 ||
  (0x2000 ≤ c.toNat && c.toNat ≤ 0x200A) || c.toNat = 0x2028 ||
  c.toNat = 0x2029 || c.toNat = 0x202F || c.toNat = 0x205F || c.toNat = 0x3000

/-- Python `str.strip`: drop leading and trailing whitespace. -/
def pyStrip (s : List Char) : List Char :=
  ((s.dropWhile isPySpace).reverse.dropWhile isPySpace).reverse

/-- Python `str.strip` at the `String` level. -/
def pyStripS (s : String) : String := ⟨pyStrip s.data⟩

/-- Python's `pat in s` substring test. -/
def containsL (pat : List Char) : List Char → Bool
  | [] => pat.isPrefixOf []
  | c :: t => pat.isPrefixOf (c :: t) || containsL pat t

/-- ASCII digit test (regex `\d` with ASCII input). -/
def isDigitC (c : Char) : Bool := '0' ≤ c && c ≤ '9'

/-- Numeric value of a run of ASCII digit characters. -/
def digitsToNat (ds : List Char) : Nat :=
  ds.foldl (fun n c => 10 * n + (c.toNat - 48)) 0

/-- The literal `seconds: ` of the retry-delay pattern. -/
def secondsLit : List Char := "seconds: ".data

/-- The literal `retry_delay` of the retry-delay pattern. -/
def retryLit : List Char := "retry_delay".data

/-- Inner scan of `re.search(r'retry_delay.*?seconds: (\d+)', s)`: after the
`retry_delay` literal, the non-greedy `.*?` consumes the shortest run of
non-newline characters up to an occurrence of `seconds: ` followed by at least
one digit; the greedy `(\d+)` then captures the maximal digit run. -/
def findSecondsFrom : List Char → Option Nat
  | [] => none
  | c :: t =>
    if secondsLit.isPrefixOf (c :: t) &&
       (match (c :: t).drop 9 with | d :: _ => isDigitC d | [] => false) then
      some (digitsToNat (((c :: t).drop 9).takeWhile isDigitC))
    else if c = '\n' then none
    else findSecondsFrom t

/-- `re.search(r'retry_delay.*?seconds: (\d+)', s)`: leftmost position where
the whole pattern matches; `none` when there is no match anywhere. -/
def findRetryDelay : List Char → Option Nat
  | [] => none
  | c :: t =>
    if retryLit.isPrefixOf (c :: t) then
      match findSecondsFrom ((c :: t).drop 11) with
      | some n => some n
      | none => findRetryDelay t
    else findRetryDelay t

/-- `re.search(r'(\d{3})', s)`: the integer value of the first three
consecutive digit characters found scanning left to right. -/
def findThreeDigits : List Char → Option Nat
  | a :: b :: c :: t =>
    if isDigitC a && isDigitC b && isDigitC c then
      some (100 * (a.toNat - 48) + 10 * (b.toNat - 48) + (c.toNat - 48))
    else findThreeDigits (b :: c :: t)
  | _ => none

/-- The typed error taxonomy of `app/core/exceptions.py`.  The classifier is
documented never to produce the configuration variant. -/
inductive GeminiServiceError where
  | GeminiRateLimitError (message : String) (retry_after_seconds : Option Nat)
  | GeminiQuotaExceededError (message : String) (quota_type : Option String)
  | GeminiAPIError (message : String) (status_code : Option Nat)
  | GeminiConfigurationError (message : String)
deriving DecidableEq, Repr

open GeminiServiceError

/-- User-facing message of the free-tier rate-limit branch. -/
def msgRateFree : String := "APIの無料枠のレート制限に達しました。しばらく待ってから再試行してください。"

/-- User-facing message of the general rate-limit branch. -/
def msgRate : String := "APIのレート制限に達しました。しばらく待ってから再試行してください。"

/-- User-facing message of the quota-exceeded branch. -/
def msgQuota : String := "APIの利用制限に達しました。プランの確認をお願いします。"

/-- User-facing message of the generic API-error branch. -/
def msgApi : String := "API接続でエラーが発生しました。しばらく時間をおいて再試行してください。"

/-- User-facing message of the unknown-error fallback branch. -/
def msgUnknown : String := "予期しないエラーが発生しました。"

/-- Rule 1 guard of `_parse_api_error`:
`"429" in error_str and "quota" in error_str.lower()`. -/
def rate_limit_cond (s : List Char) : Bool :=
  containsL "429".data s && containsL "quota".data (pyLower s)

/-- Rule 2 guard of `_parse_api_error`:
`"quota" in error_str.lower() and "exceeded" in error_str.lower()`. -/
def quota_exceeded_cond (s : List Char) : Bool :=
  containsL "quota".data (pyLower s) && containsL "exceeded".data (pyLower s)

/-- Rule 3 guard of `_parse_api_error`: `"400" in error_str or "500" in error_str`. -/
def generic_api_cond (s : List Char) : Bool :=
  containsL "400".data s || containsL "500".data s

/-- `GeminiService._parse_api_error`, as a pure function of the error's
string representation. -/
def parse_api_error (error_str : List Char) : GeminiServiceError :=
  if rate_limit_cond error_str then
    let retry_seconds := findRetryDelay error_str
    if containsL "FreeTier".data error_str then
      GeminiRateLimitError msgRateFree retry_seconds
    else
      GeminiRateLimitError msgRate retry_seconds
  else if quota_exceeded_cond error_str then
    GeminiQuotaExceededError msgQuota none
  else if generic_api_cond error_str then
    GeminiAPIError msgApi (findThreeDigits error_str)
  else
    GeminiAPIError msgUnknown none

/-- `GeminiService._build_full_prompt`: `if system_prompt:` is Python
truthiness, so `none` and the empty string both take the second branch. -/
def build_full_prompt (system_prompt : Option String) (user_prompt : String) : String :=
  match system_prompt with
  | some sp => if sp ≠ "" then sp ++ "\n\n" ++ user_prompt else user_prompt
  | none => user_prompt

/-- Outcome of the remote `model.generate_content` call: either a reply text
or a raised exception, represented by its `str(e)` form. -/
inductive ModelReply where
  | ok (text : String)
  | exn (msg : String)
deriving DecidableEq, Repr

/-- Result of `generate_text` at its caller: the returned string or the
raised classified exception. -/
inductive GenResult where
  | success (text : String)
  | failure (e : GeminiServiceError)
deriving DecidableEq, Repr

/-- `str(ValueError("Empty response from Gemini"))`. -/
def emptyResponseMsg : String := "Empty response from Gemini"

/-- `GeminiService.generate_text` as a function of the remote call's outcome:
an empty reply raises `ValueError("Empty response from Gemini")` inside the
`try`, and the blanket `except` routes every exception through
`_parse_api_error` before re-raising. -/
def generate_text (reply : ModelReply) : GenResult :=
  match reply with
  | .ok t =>
    if t = "" then .failure (parse_api_error emptyResponseMsg.data)
    else .success (pyStripS t)
  | .exn m => .failure (parse_api_error m.data)

/-! ### Scrapbox service (`app/services/scrapbox_service.py`) -/

/-- A page record from the notes collaborator's page list: the source reads
`page.get("title", "")` and `page.get("updated", 0)`; timestamps are Python
floats, modelled by rationals. -/
structure ScrapPage where
  title : String
  updated : ℚ
deriving DecidableEq, Repr

/-- A fetched page body together with its metadata, as assembled by
`get_learning_records`' page loop. -/
structure PageContent where
  title : String
  content : String
  updated : ℚ
deriving DecidableEq, Repr

/-- The two-field learning-record summary `{recent_progress, weak_areas}`. -/
structure LearningRecord where
  recent_progress : String
  weak_areas : String
deriving DecidableEq, Repr

/-- Outcome of one HTTP fetch from the notes collaborator: a response with a
status code and decoded payload, or a raised transport error. -/
inductive Fetch (α : Type) where
  | ok (status_code : Nat) (val : α)
  | exn
deriving DecidableEq, Repr

/-- A network call the service performs, recorded for frame reasoning. -/
inductive NetCall where
  | pagesListGet (project_name : String)
  | pageTextGet (project_name : String) (title : String)
  | geminiGenerate
deriving DecidableEq, Repr

/-- Behaviour of the external collaborators during one orchestrator call:
the page-list and page-text endpoints, whether the Gemini service was
constructed, the remote model's behaviour for any prompt, the wall clock, and
`datetime.fromtimestamp(...).strftime("%Y-%m-%d")` as an oracle. -/
structure ScrapEnv where
  listPages : String → Fetch (List ScrapPage)
  pageText : String → String → Fetch String
  geminiAvailable : Bool
  geminiReply : String → ModelReply
  formatDate : ℚ → String
  now : ℚ

/-- `ScrapboxService.get_pages_list`: one GET; non-200 responses and raised
transport errors are both converted to the empty list. -/
def get_pages_list (env : ScrapEnv) (project_name : String) :
    List ScrapPage × List NetCall :=
  (match env.listPages project_name with
   | .ok status pages => if status = 200 then pages else []
   | .exn => [],
   [NetCall.pagesListGet project_name])

/-- `ScrapboxService.get_page_text`: one GET; non-200 responses and raised
transport errors are both converted to the empty string. -/
def get_page_text (env : ScrapEnv) (project_name : String) (page_title : String) :
    String × List NetCall :=
  (match env.pageText project_name page_title with
   | .ok status body => if status = 200 then body else ""
   | .exn => "",
   [NetCall.pageTextGet project_name page_title])

/-- Stable insertion keeping pages in descending `updated` order (equal keys
keep original order), matching Python's stable `sorted(..., reverse=True)`. -/
def insertByUpdatedDesc (p : ScrapPage) : List ScrapPage → List ScrapPage
  | [] => [p]
  | q :: qs =>
    if p.updated < q.updated then q :: insertByUpdatedDesc p qs
    else p :: q :: qs

/-- Stable descending sort by `updated`, as in `get_recent_pages`. -/
def sortByUpdatedDesc : List ScrapPage → List ScrapPage
  | [] => []
  | p :: ps => insertByUpdatedDesc p (sortByUpdatedDesc ps)

/-- `ScrapboxService.get_recent_pages`: fetch the page list, sort by latest
update, and keep pages updated within the last `days` days. -/
def get_recent_pages (env : ScrapEnv) (project_name : String) (days : ℕ) :
    List ScrapPage × List NetCall :=
  let (pages, tr) := get_pages_list env project_name
  if pages = [] then ([], tr)
  else
    let sorted_pages := sortByUpdatedDesc pages
    let cutoff_time := env.now - (days : ℚ) * 24 * 60 * 60
    (sorted_pages.filter (fun p => cutoff_time < p.updated), tr)

/-- The page-body loop of `get_learning_records`: fetch each page's text and
keep the non-empty ones. -/
def collect_page_contents (env : ScrapEnv) (project_name : String) :
    List ScrapPage → List PageContent × List NetCall
  | [] => ([], [])
  | page :: rest =>
    let (content, tr1) := get_page_text env project_name page.title
    let (others, tr2) := collect_page_contents env project_name rest
    (if content ≠ "" then
       { title := page.title, content := content, updated := page.updated } :: others
     else others,
     tr1 ++ tr2)

/-- Character class `[ァ-ヶー一-龯a-zA-Z0-9]` of the source's Japanese keyword
patterns: katakana, the long-vowel mark, the CJK unified range used, and ASCII
alphanumerics. -/
def isJpKeywordChar (c : Char) : Bool :=
  (0x30A1 ≤ c.toNat && c.toNat ≤ 0x30F6) || c.toNat = 0x30FC ||
  (0x4E00 ≤ c.toNat && c.toNat ≤ 0x9FAF) ||
  ('a' ≤ c && c ≤ 'z') || ('A' ≤ c && c ≤ 'Z') || ('0' ≤ c && c ≤ '9')

/-- After a trigger literal, `.*?([ァ-ヶー一-龯a-zA-Z0-9]+)` consumes the
shortest non-newline gap up to a keyword character and captures the maximal
keyword-character run.  Returns the captured group and the number of input
characters consumed (gap plus group). -/
def grabGroup : List Char → Option (List Char × Nat)
  | [] => none
  | c :: t =>
    if isJpKeywordChar c then
      let g := (c :: t).takeWhile isJpKeywordChar
      some (g, g.length)
    else if c = '\n' then none
    else (grabGroup t).map (fun p => (p.1, p.2 + 1))

/-- `re.findall(trigger + r".*?([ァ-ヶー一-龯a-zA-Z0-9]+)", text)`: scan left
to right for non-overlapping matches; the first argument counts characters
still to skip inside the previous match. -/
def findallTriggerA (trigger : List Char) : Nat → List Char → List (List Char)
  | k + 1, _ :: t => findallTriggerA trigger k t
  | _, [] => []
  | 0, c :: t =>
    if trigger.isPrefixOf (c :: t) then
      match grabGroup ((c :: t).drop trigger.length) with
      | some (g, n) => g :: findallTriggerA trigger (trigger.length + n - 1) t
      | none => findallTriggerA trigger 0 t
    else findallTriggerA trigger 0 t

/-- Entry point of the trigger-pattern scan. -/
def findallTrigger (trigger s : List Char) : List (List Char) :=
  findallTriggerA trigger 0 s

/-- Trigger literals of the six `learning_patterns` regexes. -/
def learningTriggers : List String := ["学習", "勉強", "習得", "理解", "完了", "実装"]

/-- Trigger literals of the eight `weakness_patterns` regexes. -/
def weaknessTriggers : List String :=
  ["苦手", "難しい", "わからない", "課題", "問題", "エラー", "つまづ", "詰まっ"]

/-- The fixed technology-name allow-list of `_extract_learning_keywords`, in
the alternation order of the source regex. -/
def techNames : List String :=
  ["Python", "JavaScript", "TypeScript", "React", "Vue", "FastAPI", "Django",
   "Flask", "Node.js", "Docker", "Kubernetes", "AWS", "GCP", "SQL", "NoSQL",
   "Git", "GitHub"]

/-- The allow-list as character lists. -/
def techNamesData : List (List Char) := techNames.map String.data

/-- Word character for the regex `\b` boundary.  Python's `\w` is
Unicode-aware (`str.isalnum` or underscore), so kana and CJK characters are
word characters.  This model takes ASCII alphanumerics, the underscore, and
every non-ASCII character: it contains every Python word character, and on
top of them some non-ASCII punctuation and whitespace.  The model therefore
never asserts a word boundary where Python's `\b` would reject one; it can
only miss matches whose neighbouring character is non-ASCII punctuation. -/
def isWordChar (c : Char) : Bool := c.isAlphanum || c = '_' || 0x80 ≤ c.toNat

/-- Try one allow-list alternative at the current position: case-insensitive
match of the name followed by a trailing word boundary (every name ends in a
word character, so the boundary holds iff the next character is absent or not
a word character).  On success the matched slice keeps the text's own case,
as `re.findall` does. -/
def tryName (nm s : List Char) : Option (List Char) :=
  if pyLower (s.take nm.length) = pyLower nm &&
     (match s.drop nm.length with | [] => true | d :: _ => !isWordChar d) then
    some (s.take nm.length)
  else none

/-- First alternative of the alternation that matches at this position, in
source order. -/
def firstMatchIn : List (List Char) → List Char → Option (List Char)
  | [], _ => none
  | nm :: nms, s =>
    match tryName nm s with
    | some m => some m
    | none => firstMatchIn nms s

/-- `re.findall(r"\b(Python|...|GitHub)\b", text, re.IGNORECASE)`: left-to-
right non-overlapping scan.  The first argument counts characters still to
skip inside the previous match; the second records whether the previous
character was a word character (no leading `\b` between two word characters;
every name starts with a word character, so a match can only begin at a
non-word/word transition or at the start). -/
def techScanA : Nat → Bool → List Char → List (List Char)
  | k + 1, _, c :: t => techScanA k (isWordChar c) t
  | _, _, [] => []
  | 0, prevWord, c :: t =>
    if prevWord then techScanA 0 (isWordChar c) t
    else
      match firstMatchIn techNamesData (c :: t) with
      | some m => m :: techScanA (m.length - 1) (isWordChar c) t
      | none => techScanA 0 (isWordChar c) t

/-- `ScrapboxService._extract_learning_keywords`.  The source returns
`list(set(keywords))`, whose order Python leaves unspecified; `dedup` is a
deterministic stand-in with the same membership. -/
def extract_learning_keywords (title content : String) : List String :=
  let text := (title ++ " " ++ content).data
  let keywords := learningTriggers.foldl
    (fun acc trig => acc ++ (findallTrigger trig.data text).map
      (fun g => (⟨g⟩ : String))) []
  let tech_keywords := (techScanA 0 false text).map (fun g => (⟨g⟩ : String))
  (keywords ++ tech_keywords).dedup

/-- `ScrapboxService._extract_weakness_keywords`. -/
def extract_weakness_keywords (title content : String) : List String :=
  let text := (title ++ " " ++ content).data
  let keywords := weaknessTriggers.foldl
    (fun acc trig => acc ++ (findallTrigger trig.data text).map
      (fun g => (⟨g⟩ : String))) []
  keywords.dedup

/-- Greedy prefix of `re.search(f".\x7b0,20\x7d{pattern}.\x7b0,20\x7d", s)` at
one start position: the largest `k ≤ 20` such that `k` non-newline characters
precede an occurrence of the literal. -/
def bestK (lit s : List Char) : Option Nat :=
  ((List.range 21).reverse).find? (fun k =>
    (s.take k).all (fun c => c ≠ '\n') && lit.isPrefixOf (s.drop k))

/-- The matched span at a start position: prefix gap, literal, then greedily
up to 20 trailing non-newline characters. -/
def mkGroup (lit s : List Char) (k : Nat) : List Char :=
  s.take (k + lit.length) ++
    ((s.drop (k + lit.length)).takeWhile (fun c => c ≠ '\n')).take 20

/-- `re.search` of the context pattern: leftmost start position admitting a
match wins; at that position the prefix is greedy. -/
def ctxSearch (lit : List Char) : List Char → Option (List Char)
  | [] => none
  | c :: t =>
    match bestK lit (c :: t) with
    | some k => some (mkGroup lit (c :: t) k)
    | none => ctxSearch lit t

/-- The `activity_patterns` literals of `_generate_recent_progress`. -/
def activityPatterns : List String :=
  ["実装した", "作成した", "学習した", "理解した", "完了した", "試した", "やってみた"]

/-- The activity loop of `_generate_recent_progress`: for the first pattern
contained in the body whose context search succeeds, the stripped matched
span; the loop breaks only when the search succeeded. -/
def firstActivity : List String → List Char → Option String
  | [], _ => none
  | pat :: pats, content =>
    if containsL pat.data content then
      match ctxSearch pat.data content with
      | some g => some ⟨pyStrip g⟩
      | none => firstActivity pats content
    else firstActivity pats content

/-- Sentinel of `_generate_recent_progress` when no pages exist. -/
def noRecentMsg : String := "最近の学習記録が見つかりません"

/-- `ScrapboxService._generate_recent_progress`. -/
def generate_recent_progress (page_contents : List PageContent) : String :=
  if page_contents = [] then noRecentMsg
  else
    let progress_items := (page_contents.take 3).foldl (fun acc page =>
      let acc1 :=
        if page.title ≠ "" then acc ++ ["「" ++ page.title ++ "」について学習"]
        else acc
      match firstActivity activityPatterns page.content.data with
      | some ctx => acc1 ++ [ctx]
      | none => acc1) []
    if progress_items ≠ [] then String.intercalate " / " (progress_items.take 3)
    else "学習活動を継続中"

/-- `ScrapboxService._generate_weak_areas`.  `list(set(...))` is modelled by
`dedup` (same membership, deterministic order). -/
def generate_weak_areas (weak_keywords : List String) : String :=
  if weak_keywords = [] then "特に弱点は見つかりませんでした"
  else
    let unique_keywords := weak_keywords.dedup
    let top_keywords := unique_keywords.take 3
    if top_keywords ≠ [] then String.intercalate ", " top_keywords
    else "継続的な学習により改善中"

/-- Sentinel when the Gemini service is unavailable. -/
def aiUnavailableMsg : String := "AIサービスが利用できません"

/-- Sentinel when the generative call raised. -/
def aiErrorMsg : String := "AI解析でエラーが発生しました"

/-- Default when the reply lacks the expected labelled lines. -/
def aiNoResultMsg : String := "AIによる解析結果が取得できませんでした"

/-- Label of the progress line in the model's expected reply. -/
def progressLabel : String := "最近の進捗:"

/-- Label of the weak-areas line in the model's expected reply. -/
def weakLabel : String := "弱点分野:"

/-- One page's fragment of the analysis prompt: header with title and date
(`"不明"` for a missing/zero timestamp) and the body truncated to 500
characters. -/
def build_page_text (env : ScrapEnv) (page : PageContent) : String :=
  let date := if page.updated ≠ 0 then env.formatDate page.updated else "不明"
  "【" ++ page.title ++ "】(" ++ date ++ ")\n" ++ (⟨page.content.data.take 500⟩ : String)

/-- Text of the analysis prompt before the interpolated records. -/
def analysisPromptPre : String :=
  "\n以下はScrapboxの学習記録です。これらの記録を分析して、以下の2つの情報を抽出してください：\n\n1. **最近の進捗**: 最近の学習活動、達成した内容、進んでいる分野を簡潔にまとめてください\n2. **弱点・課題分野**: 困っていること、苦手分野、エラーや問題、未解決の課題を特定してください\n\n## Scrapboxの記録:\n"

/-- Text of the analysis prompt after the interpolated records. -/
def analysisPromptPost : String :=
  "\n\n## 出力形式:\n最近の進捗: [具体的な学習活動や達成内容]\n弱点分野: [課題や困りごと、苦手分野をカンマ区切り]\n\n注意：\n- 日本語の表現や文脈を理解して分析してください\n- データがない場合は適切なメッセージを返してください\n"

/-- The structured prompt `_analyze_with_ai` sends: up to ten page fragments
joined with `"\n\n---\n\n"`, between the fixed prompt texts. -/
def build_analysis_prompt (env : ScrapEnv) (page_contents : List PageContent) :
    String :=
  let pages_text := (page_contents.take 10).map (build_page_text env)
  let combined_text := String.intercalate "\n\n---\n\n" pages_text
  analysisPromptPre ++ combined_text ++ analysisPromptPost

/-- The reply-parsing loop of `_analyze_with_ai`: strip, split on newlines,
and for each labelled line store its stripped remainder (later lines with the
same label overwrite earlier ones; `str.replace` removes every occurrence of
the label). -/
def parse_ai_response (response : String) : LearningRecord :=
  let init : LearningRecord := ⟨aiNoResultMsg, aiNoResultMsg⟩
  if response ≠ "" then
    ((pyStripS response).splitOn "\n").foldl (fun acc line =>
      if line.startsWith progressLabel then
        { acc with recent_progress := pyStripS (line.replace progressLabel "") }
      else if line.startsWith weakLabel then
        { acc with weak_areas := pyStripS (line.replace weakLabel "") }
      else acc) init
  else init

/-- `ScrapboxService._analyze_with_ai`: unavailable service or no pages give
the unavailable sentinel pair without a call; a raised generative call is
caught and gives the AI-error sentinel pair. -/
def analyze_with_ai (env : ScrapEnv) (page_contents : List PageContent) :
    LearningRecord × List NetCall :=
  if !env.geminiAvailable || page_contents.isEmpty then
    (⟨aiUnavailableMsg, aiUnavailableMsg⟩, [])
  else
    let prompt := build_analysis_prompt env page_contents
    match generate_text (env.geminiReply prompt) with
    | .success response => (parse_ai_response response, [NetCall.geminiGenerate])
    | .failure _ => (⟨aiErrorMsg, aiErrorMsg⟩, [NetCall.geminiGenerate])

/-- Sentinel for an unset project name. -/
def noProjectMsg : String := "Scrapboxプロジェクトが設定されていません"

/-- Second sentinel of the zero-pages branch. -/
def noDataMsg : String := "分析できるデータがありません"

/-- Sentinel of the source's blanket `except` branch in
`get_learning_records`.  In this embedding every collaborator failure is
already materialised in `Fetch`/`ModelReply` and absorbed earlier, so the
branch has no reachable counterpart. -/
def fetchErrorMsg : String := "データ取得エラーが発生しました"

/-- `ScrapboxService.get_learning_records`: the enrichment orchestrator. -/
def get_learning_records (env : ScrapEnv) (project_name : String) :
    LearningRecord × List NetCall :=
  if project_name = "" then (⟨noProjectMsg, noProjectMsg⟩, [])
  else
    let (recent_pages, tr1) := get_recent_pages env project_name 90
    if recent_pages = [] then (⟨noRecentMsg, noDataMsg⟩, tr1)
    else
      let (page_contents, tr2) :=
        collect_page_contents env project_name (recent_pages.take 10)
      let (ai_result, tr3) := analyze_with_ai env page_contents
      if ai_result.recent_progress = aiUnavailableMsg ∨
         ai_result.recent_progress = aiErrorMsg ∨
         ai_result.weak_areas = aiUnavailableMsg ∨
         ai_result.weak_areas = aiErrorMsg then
        -- the source also builds `learning_keywords` here and never uses it
        let _learning_keywords := page_contents.foldl
          (fun acc page => acc ++ extract_learning_keywords page.title page.content) []
        let weak_areas_keywords := page_contents.foldl
          (fun acc page => acc ++ extract_weakness_keywords page.title page.content) []
        (⟨generate_recent_progress page_contents,
          generate_weak_areas weak_areas_keywords⟩, tr1 ++ tr2 ++ tr3)
      else (ai_result, tr1 ++ tr2 ++ tr3)

/-- An environment where every collaborator fails, for witnesses. -/
def envFail : ScrapEnv where
  listPages := fun _ => .exn
  pageText := fun _ _ => .exn
  geminiAvailable := false
  geminiReply := fun _ => .exn "down"
  formatDate := fun _ => ""
  now := 0

/-! ### Rate limiting (`app/dependencies.py`) -/

/-- Outcome of the `rate_limit` dependency for one request. -/
inductive RateLimitOutcome where
  | allowed
  | rejected429
deriving DecidableEq, Repr

/-- One step of the `rate_limit` middleware for one client address: drop
timestamps older than one minute, reject with 429 when the surviving count has
reached the per-minute threshold (leaving the stored list as cleaned), or
record the request's timestamp and allow it. -/
def rate_limit (stored : List ℚ) (current_time : ℚ)
    (rate_limit_per_minute : ℕ) : RateLimitOutcome × List ℚ :=
  let cutoff_time := current_time - 60
  let kept := stored.filter (fun ts => cutoff_time < ts)
  if rate_limit_per_minute ≤ kept.length then (.rejected429, kept)
  else (.allowed, kept ++ [current_time])

/-- Error string of the C4 counterexample: holds all four substrings the claim
names, plus an earlier `retry_delay ... seconds: 7` pattern. -/
def c4input : List Char :=
  "429 quota FreeTier retry_delay a seconds: 7 retry_delay \x7b seconds: 20 \x7d".data

/-- The classifier only ever produces the rate-limit, quota-exceeded or
generic API variants of the taxonomy. -/
def inTaxonomy (e : GeminiServiceError) : Prop :=
  (∃ m r, e = GeminiRateLimitError m r) ∨
  (∃ m q, e = GeminiQuotaExceededError m q) ∨
  (∃ m s, e = GeminiAPIError m s)

/-! ### Helper lemmas for the classifier -/

/-- If every element surviving `dropWhile p` satisfies `p`, every element of
the original list does. -/
theorem all_of_dropWhile_all {p : Char → Bool} {l : List Char}
    (h : ∀ x ∈ l.dropWhile p, p x = true) : ∀ x ∈ l, p x = true := by
  induction l with
  | nil => simp
  | cons a t ih =>
    by_cases ha : p a = true
    · rw [List.dropWhile_cons_of_pos ha] at h
      intro x hx
      rcases List.mem_cons.mp hx with rfl | hx
      · exact ha
      · exact ih h x hx
    · rw [List.dropWhile_cons_of_neg ha] at h
      exact fun x hx => absurd (h a (List.mem_cons_self a t)) ha

/-- A list holding a non-whitespace character does not strip to nothing. -/
theorem pyStrip_ne_nil {l : List Char} {c : Char} (hc : c ∈ l)
    (hns : isPySpace c = false) : pyStrip l ≠ [] := by
  intro h
  unfold pyStrip at h
  rw [List.reverse_eq_nil_iff, List.dropWhile_eq_nil_iff] at h
  have h2 : ∀ x ∈ (l.dropWhile isPySpace), isPySpace x = true := by
    intro x hx
    exact h x (List.mem_reverse.mpr hx)
  have := all_of_dropWhile_all h2 c hc
  rw [hns] at this
  exact Bool.false_ne_true this

/-- A step of `findThreeDigits` preserves success. -/
theorem findThreeDigits_cons_isSome {c : Char} {t : List Char}
    (h : (findThreeDigits t).isSome = true) :
    (findThreeDigits (c :: t)).isSome = true := by
  match t with
  | [] => simp [findThreeDigits] at h
  | [b] => simp [findThreeDigits] at h
  | b :: d :: rest =>
    rw [findThreeDigits]
    split
    · rfl
    · exact h

/-- If a list of three digit characters occurs as a substring, the scan of
`re.search(r'(\d{3})')` succeeds. -/
theorem findThreeDigits_isSome_of_contains {a b c : Char}
    (ha : isDigitC a = true) (hb : isDigitC b = true) (hc : isDigitC c = true) :
    ∀ s : List Char, containsL [a, b, c] s = true → (findThreeDigits s).isSome = true := by
  intro s h
  induction s with
  | nil => simp [containsL, List.isPrefixOf] at h
  | cons x t ih =>
    rw [containsL] at h
    rcases Bool.or_eq_true .. |>.mp h with hp | ht
    · obtain ⟨rest, hrest⟩ := (List.isPrefixOf_iff_prefix.mp hp)
      rw [← hrest, List.cons_append, List.cons_append, List.cons_append, List.nil_append]
      rw [findThreeDigits, if_pos (by rw [ha, hb, hc]; rfl)]
      rfl
    · exact findThreeDigits_cons_isSome (ih ht)

/-- Every output of `_parse_api_error` lies in the three-variant taxonomy. -/
theorem parse_api_error_inTaxonomy (s : List Char) : inTaxonomy (parse_api_error s) := by
  unfold parse_api_error inTaxonomy
  split
  · split
    · exact Or.inl ⟨_, _, rfl⟩
    · exact Or.inl ⟨_, _, rfl⟩
  · split
    · exact Or.inr (Or.inl ⟨_, _, rfl⟩)
    · split
      · exact Or.inr (Or.inr ⟨_, _, rfl⟩)
      · exact Or.inr (Or.inr ⟨_, _, rfl⟩)

/-! ### Claim theorems for the Gemini gateway -/

/-- C1: `_parse_api_error` is a total, deterministic pure function of the
error string (it is a Lean function of the string, so totality and determinism
are by construction), producing exactly one tagged outcome with the rule
precedence rate-limit → quota-exceeded → generic-api → fallback,
first match wins even when several rules' substrings are present. -/
theorem parse_api_error_precedence (s : List Char) :
    (rate_limit_cond s = true →
      ∃ m, parse_api_error s = GeminiRateLimitError m (findRetryDelay s)) ∧
    (rate_limit_cond s = false → quota_exceeded_cond s = true →
      parse_api_error s = GeminiQuotaExceededError msgQuota none) ∧
    (rate_limit_cond s = false → quota_exceeded_cond s = false →
      generic_api_cond s = true →
      parse_api_error s = GeminiAPIError msgApi (findThreeDigits s)) ∧
    (rate_limit_cond s = false → quota_exceeded_cond s = false →
      generic_api_cond s = false →
      parse_api_error s = GeminiAPIError msgUnknown none) := by
  refine ⟨?_, ?_, ?_, ?_⟩ <;> intros <;>
    first
    | (rename_i h1
       unfold parse_api_error
       rw [if_pos h1]
       by_cases hf : containsL "FreeTier".data s = true
       · exact ⟨msgRateFree, by simp [hf]⟩
       · exact ⟨msgRate, by simp [hf]⟩)
    | simp_all [parse_api_error]

/-- Witness for C1 at a string matching the substrings of all three rules:
rule 1 wins. -/
theorem parse_api_error_precedence_witness :
    ∃ m, parse_api_error "429 quota exceeded 500".data
      = GeminiRateLimitError m (findRetryDelay "429 quota exceeded 500".data) :=
  (parse_api_error_precedence "429 quota exceeded 500".data).1 (by decide)

/-- C2: the combined prompt equals `system_text ++ "\n\n" ++ user_text` when
`system_text` is non-empty, and `user_text` alone otherwise (absent or empty,
by Python truthiness). -/
theorem build_full_prompt_spec (system_text user_text : String) :
    (system_text ≠ "" →
      build_full_prompt (some system_text) user_text
        = system_text ++ "\n\n" ++ user_text) ∧
    build_full_prompt (some "") user_text = user_text ∧
    build_full_prompt none user_text = user_text := by
  refine ⟨fun h => ?_, ?_, rfl⟩
  · simp [build_full_prompt, h]
  · simp [build_full_prompt]

/-- Witness for C2 at concrete prompts. -/
theorem build_full_prompt_spec_witness :
    build_full_prompt (some "sys") "usr" = "sys" ++ "\n\n" ++ "usr" :=
  (build_full_prompt_spec "sys" "usr").1 (by decide)

/-- C3 counterexample: a whitespace-only reply is truthy in Python, so
`generate_text` does NOT fail; it returns success whose content is empty after
stripping — refuting "every success result is non-empty after trimming". -/
theorem generate_text_empty_after_trim_cex :
    generate_text (.ok " ") = .success "" ∧ pyStripS " " = "" := by
  constructor <;> rfl

/-- C3 amended: the emptiness check happens before trimming.  An empty reply
fails (surfacing through the classifier as the generic unknown-error
`GeminiAPIError`); a non-empty reply succeeds with the stripped text, which is
non-empty whenever the reply holds at least one non-whitespace character (but
is empty for whitespace-only replies). -/
theorem generate_text_empty_check_amended (t : String) :
    generate_text (.ok "") = .failure (GeminiAPIError msgUnknown none) ∧
    (t ≠ "" → generate_text (.ok t) = .success (pyStripS t)) ∧
    ((∃ c ∈ t.data, isPySpace c = false) → pyStripS t ≠ "") := by
  refine ⟨by decide, fun h => ?_, fun ⟨c, hc, hns⟩ => ?_⟩
  · simp [generate_text, h]
  · intro h
    have hdata : pyStrip t.data = [] := by
      have := congrArg String.data h
      exact this
    exact pyStrip_ne_nil hc hns hdata

/-- Witness for C3's amended theorem at the reply `" x "`. -/
theorem generate_text_empty_check_amended_witness :
    generate_text (.ok " x ") = .success (pyStripS " x ") ∧ pyStripS " x " ≠ "" :=
  ⟨(generate_text_empty_check_amended " x ").2.1 (by decide),
   (generate_text_empty_check_amended " x ").2.2 ⟨'x', by decide, by decide⟩⟩

/-- C4 counterexample: this string contains all four required substrings
(`429`, `quota`, `FreeTier`, `retry_delay { seconds: 20 }`), yet the classifier
returns retry_after_seconds = 7, because `re.search` takes the FIRST
`retry_delay ... seconds: <N>` match in the string. -/
theorem rate_limit_retry_cex :
    containsL "429".data c4input = true ∧
    containsL "quota".data c4input = true ∧
    containsL "FreeTier".data c4input = true ∧
    containsL "retry_delay \x7b seconds: 20 \x7d".data c4input = true ∧
    parse_api_error c4input = GeminiRateLimitError msgRateFree (some 7) := by
  refine ⟨by decide, by decide, by decide, by decide, by decide⟩

/-- C4 amended: for every rule-1-matching string, `retry_after_seconds` is the
value captured by the FIRST `retry_delay ... seconds: <N>` match (so it is 20
for the spec's example, whose only such pattern is
`retry_delay { seconds: 20 }`), and it is unset when no such pattern occurs. -/
theorem rate_limit_retry_amended (s : List Char) :
    (rate_limit_cond s = true →
      ∃ m, parse_api_error s = GeminiRateLimitError m (findRetryDelay s)) ∧
    (rate_limit_cond s = true → findRetryDelay s = none →
      ∃ m, parse_api_error s = GeminiRateLimitError m none) ∧
    parse_api_error "429 quota FreeTier retry_delay \x7b seconds: 20 \x7d".data
      = GeminiRateLimitError msgRateFree (some 20) := by
  refine ⟨fun h1 => ?_, fun h1 hn => ?_, by decide⟩
  · unfold parse_api_error
    rw [if_pos h1]
    by_cases hf : containsL "FreeTier".data s = true
    · exact ⟨msgRateFree, by simp [hf]⟩
    · exact ⟨msgRate, by simp [hf]⟩
  · unfold parse_api_error
    rw [if_pos h1]
    by_cases hf : containsL "FreeTier".data s = true
    · exact ⟨msgRateFree, by simp [hf, hn]⟩
    · exact ⟨msgRate, by simp [hf, hn]⟩

/-- Witness for C4's amended theorem at a rule-1 string with no retry pattern. -/
theorem rate_limit_retry_amended_witness :
    ∃ m, parse_api_error "429 quota".data = GeminiRateLimitError m none :=
  (rate_limit_retry_amended "429 quota".data).2.1 (by decide) (by decide)

/-- C5: when rules 1 and 2 fail and the string contains `400` or `500`, the
classifier returns `GeminiAPIError` with `status_code` equal to the first run
of three consecutive digits anywhere in the string (always present), which can
differ from 400/500 — e.g. `"Error 123 happened: HTTP 500"` yields 123. -/
theorem generic_api_status_code (s : List Char)
    (h1 : rate_limit_cond s = false) (h2 : quota_exceeded_cond s = false)
    (h3 : generic_api_cond s = true) :
    parse_api_error s = GeminiAPIError msgApi (findThreeDigits s) ∧
    (∃ n, findThreeDigits s = some n) ∧
    parse_api_error "Error 123 happened: HTTP 500".data
      = GeminiAPIError msgApi (some 123) := by
  refine ⟨by simp [parse_api_error, h1, h2, h3], ?_, by decide⟩
  have hsome : (findThreeDigits s).isSome = true := by
    rcases Bool.or_eq_true .. |>.mp h3 with h4 | h5
    · exact findThreeDigits_isSome_of_contains (by decide) (by decide) (by decide) s h4
    · exact findThreeDigits_isSome_of_contains (by decide) (by decide) (by decide) s h5
  exact ⟨(findThreeDigits s).get hsome, (Option.eq_some_of_isSome hsome)⟩

/-- Witness for C5 at `"Error 123 happened: HTTP 500"`. -/
theorem generic_api_status_code_witness :
    parse_api_error "Error 123 happened: HTTP 500".data
      = GeminiAPIError msgApi (findThreeDigits "Error 123 happened: HTTP 500".data) ∧
    (∃ n, findThreeDigits "Error 123 happened: HTTP 500".data = some n) ∧
    parse_api_error "Error 123 happened: HTTP 500".data
      = GeminiAPIError msgApi (some 123) :=
  generic_api_status_code "Error 123 happened: HTTP 500".data
    (by decide) (by decide) (by decide)

/-- C10: every failure `generate_text` surfaces is an instance of the typed
taxonomy (rate-limit, quota-exceeded, or API error) — the blanket `except`
routes everything, including the internal empty-response `ValueError`, through
`_parse_api_error`; an empty reply surfaces as the generic `GeminiAPIError`
with `status_code` unset, never as a raw exception. -/
theorem generate_text_failure_taxonomy (reply : ModelReply) :
    (∀ e, generate_text reply = .failure e → inTaxonomy e) ∧
    generate_text (.ok "") = .failure (GeminiAPIError msgUnknown none) := by
  refine ⟨fun e he => ?_, by decide⟩
  match reply with
  | .ok t =>
    by_cases h : t = ""
    · rw [generate_text, if_pos h] at he
      cases he
      exact parse_api_error_inTaxonomy _
    · rw [generate_text, if_neg h] at he
      exact absurd he (by simp)
  | .exn m =>
    rw [generate_text] at he
    cases he
    exact parse_api_error_inTaxonomy _

/-- Witness for C10 at a raised transport error `"boom"`. -/
theorem generate_text_failure_taxonomy_witness :
    inTaxonomy (parse_api_error "boom".data) :=
  (generate_text_failure_taxonomy (.exn "boom")).1 _ rfl

/-! ### Claim theorems for the Scrapbox orchestrator and rate limiter -/

/-- C6: for every project name and every collaborator behaviour, the
orchestrator is a total function returning a well-formed two-field summary
(never raises, by construction of the embedding); each collaborator failure —
raised transport error or non-200 response — is converted to an empty result
(`[]` or `""`) at that step and never propagated. -/
theorem get_learning_records_total (env : ScrapEnv) (project_name : String) :
    (env.listPages project_name = .exn → (get_pages_list env project_name).1 = []) ∧
    (∀ st ps, env.listPages project_name = .ok st ps → st ≠ 200 →
      (get_pages_list env project_name).1 = []) ∧
    (∀ title, env.pageText project_name title = .exn →
      (get_page_text env project_name title).1 = "") ∧
    (∀ title st body, env.pageText project_name title = .ok st body → st ≠ 200 →
      (get_page_text env project_name title).1 = "") ∧
    (∃ rp wa, (get_learning_records env project_name).1 = ⟨rp, wa⟩) := by
  refine ⟨fun h => ?_, fun st ps h hst => ?_, fun title h => ?_,
    fun title st body h hst => ?_,
    ⟨(get_learning_records env project_name).1.recent_progress,
     (get_learning_records env project_name).1.weak_areas, rfl⟩⟩
  · simp [get_pages_list, h]
  · simp [get_pages_list, h, hst]
  · simp [get_page_text, h]
  · simp [get_page_text, h, hst]

/-- Witness for C6 in an environment where every collaborator fails. -/
theorem get_learning_records_total_witness :
    (get_pages_list envFail "proj").1 = [] ∧
    (get_page_text envFail "proj" "title").1 = "" :=
  ⟨(get_learning_records_total envFail "proj").1 rfl,
   (get_learning_records_total envFail "proj").2.2.1 "title" rfl⟩

/-- C7: with an empty (unset) project identifier the orchestrator returns the
"project not configured" sentinel for both fields and performs no network
call at all (empty call trace). -/
theorem get_learning_records_no_project (env : ScrapEnv) :
    get_learning_records env "" = (⟨noProjectMsg, noProjectMsg⟩, []) := by
  simp [get_learning_records]

/-- C9: for one client address, a request finding the sliding-window count
below the threshold is allowed; the request that crosses the threshold
(window count already at or above the limit) is rejected with 429; and after
more than 60 seconds with no requests, the window is fully reset and a
subsequent request is accepted (for any positive threshold). -/
theorem rate_limit_window (stored : List ℚ) (current_time : ℚ) (limit : ℕ) :
    ((stored.filter (fun ts => current_time - 60 < ts)).length < limit →
      rate_limit stored current_time limit =
        (.allowed, stored.filter (fun ts => current_time - 60 < ts) ++ [current_time])) ∧
    (limit ≤ (stored.filter (fun ts => current_time - 60 < ts)).length →
      rate_limit stored current_time limit =
        (.rejected429, stored.filter (fun ts => current_time - 60 < ts))) ∧
    (∀ t, (∀ ts ∈ stored, ts ≤ t) → t + 60 < current_time → 0 < limit →
      rate_limit stored current_time limit = (.allowed, [current_time])) := by
  refine ⟨fun h => ?_, fun h => ?_, fun t hall hgap hpos => ?_⟩
  · simp only [rate_limit]
    rw [if_neg (by omega)]
  · simp only [rate_limit]
    rw [if_pos h]
  · have hnil : stored.filter (fun ts => current_time - 60 < ts) = [] := by
      rw [List.filter_eq_nil_iff]
      intro ts hts
      have h1 : ts ≤ t := hall ts hts
      simp only [decide_eq_true_eq]
      intro hlt
      linarith
    simp only [rate_limit, hnil]
    rw [if_neg (by simp only [List.length_nil]; omega)]
    simp

/-- Witness for C9: one stale timestamp, a request 100 seconds later, limit 1. -/
theorem rate_limit_window_witness :
    rate_limit [(0 : ℚ)] 100 1 = (.allowed, [100]) :=
  (rate_limit_window [(0 : ℚ)] 100 1).2.2 0 (by decide) (by norm_num) (by decide)

/-- A successful alternative try returns the matched slice, which folds to
the same lowercase form as the name. -/
theorem tryName_some {nm s m : List Char} (h : tryName nm s = some m) :
    m = s.take nm.length ∧ pyLower m = pyLower nm := by
  unfold tryName at h
  split at h
  · rename_i hc
    simp only [Bool.and_eq_true, decide_eq_true_eq] at hc
    cases h
    exact ⟨rfl, hc.1⟩
  · exact absurd h (by simp)

/-- No allow-list name contains a space (after case folding). -/
theorem techNames_no_space : ∀ nm ∈ techNamesData, ' ' ∉ pyLower nm := by
  intro nm hnm
  fin_cases hnm <;> decide

/-- A match found by the alternation cannot reach past a space: names hold no
space character, so a match starting before a space ends before it. -/
theorem firstMatchIn_length_le :
    ∀ (names : List (List Char)), (∀ nm ∈ names, ' ' ∉ pyLower nm) →
      ∀ (w rest m : List Char),
        firstMatchIn names (w ++ (' ' :: rest)) = some m → m.length ≤ w.length := by
  intro names
  induction names with
  | nil => intro _ w rest m h; simp [firstMatchIn] at h
  | cons nm nms ih =>
    intro hn w rest m h
    rw [firstMatchIn] at h
    cases htry : tryName nm (w ++ (' ' :: rest)) with
    | none =>
      rw [htry] at h
      exact ih (fun x hx => hn x (List.mem_cons_of_mem _ hx)) w rest m h
    | some mm =>
      rw [htry] at h
      have h2 : mm = m := by
        have h3 : some mm = some m := h
        exact Option.some.inj h3
      subst h2
      obtain ⟨hm, hlow⟩ := tryName_some htry
      by_contra hgt
      push_neg at hgt
      have hn2 : w.length < nm.length := by
        have hle : mm.length ≤ nm.length := by
          rw [hm, List.length_take]
          exact Nat.min_le_left _ _
        omega
      have hsp : ' ' ∈ mm := by
        rw [hm, List.take_append_eq_append_take,
          List.take_of_length_le (Nat.le_of_lt hn2)]
        obtain ⟨j, hj⟩ : ∃ j, nm.length - w.length = j + 1 :=
          ⟨nm.length - w.length - 1, by omega⟩
        rw [hj, List.take_succ_cons]
        exact List.mem_append_right _ (List.mem_cons_self _ _)
      have hsp2 : ' ' ∈ pyLower mm := by
        have hmem := List.mem_map_of_mem Char.toLower hsp
        rwa [show Char.toLower ' ' = ' ' from rfl] at hmem
      rw [hlow] at hsp2
      exact hn nm (List.mem_cons_self _ _) hsp2

/-- Scanning past a space resets the previous-character state: no allow-list
name begins with a space, so no match starts there. -/
theorem techScan_space (prev : Bool) (X : List Char) :
    techScanA 0 prev (' ' :: X) = techScanA 0 false X := by
  cases prev
  · rfl
  · rfl

/-- At the occurrence itself: `FastAPI` is the first alternative matching at
its own `F`, and it is emitted when the suffix supplies the trailing word
boundary (empty, or a non-word first character). -/
theorem techScan_fastapi (b : List Char) (hb : isWordChar (b.headD '.') = false) :
    "FastAPI".data ∈ techScanA 0 false
      ('F' :: 'a' :: 's' :: 't' :: 'A' :: 'P' :: 'I' :: b) := by
  cases b with
  | nil => decide
  | cons d t =>
    have hd : isWordChar d = false := hb
    have ht : tryName "FastAPI".data ('F' :: 'a' :: 's' :: 't' :: 'A' :: 'P' :: 'I' :: d :: t)
        = some "FastAPI".data := by
      have e : tryName "FastAPI".data ('F' :: 'a' :: 's' :: 't' :: 'A' :: 'P' :: 'I' :: d :: t)
          = if (!isWordChar d) then some "FastAPI".data else none := rfl
      rw [e, hd]
      rfl
    have hfm : firstMatchIn techNamesData ('F' :: 'a' :: 's' :: 't' :: 'A' :: 'P' :: 'I' :: d :: t)
        = some "FastAPI".data := by
      have e : firstMatchIn techNamesData ('F' :: 'a' :: 's' :: 't' :: 'A' :: 'P' :: 'I' :: d :: t)
          = match tryName "FastAPI".data ('F' :: 'a' :: 's' :: 't' :: 'A' :: 'P' :: 'I' :: d :: t) with
            | some m => some m
            | none => firstMatchIn
                (["Django", "Flask", "Node.js", "Docker", "Kubernetes", "AWS", "GCP",
                  "SQL", "NoSQL", "Git", "GitHub"].map String.data)
                ('F' :: 'a' :: 's' :: 't' :: 'A' :: 'P' :: 'I' :: d :: t) := rfl
      rw [e, ht]
    have e2 : techScanA 0 false ('F' :: 'a' :: 's' :: 't' :: 'A' :: 'P' :: 'I' :: d :: t)
        = match firstMatchIn techNamesData ('F' :: 'a' :: 's' :: 't' :: 'A' :: 'P' :: 'I' :: d :: t) with
          | some m => m :: techScanA (m.length - 1) (isWordChar 'F')
              ('a' :: 's' :: 't' :: 'A' :: 'P' :: 'I' :: d :: t)
          | none => techScanA 0 (isWordChar 'F')
              ('a' :: 's' :: 't' :: 'A' :: 'P' :: 'I' :: d :: t) := rfl
    rw [e2, hfm]
    exact List.mem_cons_self _ _

/-- The scan invariant: from any scan state (pending skip no longer than the
text before the space, arbitrary previous-character flag), the scan over
`w ++ " FastAPI" ++ b` reaches the occurrence and emits `FastAPI` — skips
come from matches, and no match jumps the preceding space. -/
theorem techScan_reaches (b : List Char) (hb : isWordChar (b.headD '.') = false) :
    ∀ (w : List Char) (k : Nat) (prev : Bool), k ≤ w.length →
      "FastAPI".data ∈ techScanA k prev
        (w ++ (' ' :: 'F' :: 'a' :: 's' :: 't' :: 'A' :: 'P' :: 'I' :: b)) := by
  intro w
  induction w with
  | nil =>
    intro k prev hk
    obtain rfl : k = 0 := Nat.le_zero.mp hk
    rw [List.nil_append, techScan_space]
    exact techScan_fastapi b hb
  | cons c w2 ih =>
    intro k prev hk
    cases k with
    | succ k =>
      rw [List.cons_append]
      show "FastAPI".data ∈ techScanA k (isWordChar c)
        (w2 ++ (' ' :: 'F' :: 'a' :: 's' :: 't' :: 'A' :: 'P' :: 'I' :: b))
      refine ih k (isWordChar c) ?_
      simp only [List.length_cons] at hk
      omega
    | zero =>
      rw [List.cons_append]
      cases prev with
      | true =>
        show "FastAPI".data ∈ techScanA 0 (isWordChar c)
          (w2 ++ (' ' :: 'F' :: 'a' :: 's' :: 't' :: 'A' :: 'P' :: 'I' :: b))
        exact ih 0 (isWordChar c) (Nat.zero_le _)
      | false =>
        have e : techScanA 0 false
            (c :: (w2 ++ (' ' :: 'F' :: 'a' :: 's' :: 't' :: 'A' :: 'P' :: 'I' :: b)))
            = match firstMatchIn techNamesData
                (c :: (w2 ++ (' ' :: 'F' :: 'a' :: 's' :: 't' :: 'A' :: 'P' :: 'I' :: b))) with
              | some m => m :: techScanA (m.length - 1) (isWordChar c)
                  (w2 ++ (' ' :: 'F' :: 'a' :: 's' :: 't' :: 'A' :: 'P' :: 'I' :: b))
              | none => techScanA 0 (isWordChar c)
                  (w2 ++ (' ' :: 'F' :: 'a' :: 's' :: 't' :: 'A' :: 'P' :: 'I' :: b)) := rfl
        rw [e]
        cases hfm : firstMatchIn techNamesData
            (c :: (w2 ++ (' ' :: 'F' :: 'a' :: 's' :: 't' :: 'A' :: 'P' :: 'I' :: b))) with
        | none => exact ih 0 (isWordChar c) (Nat.zero_le _)
        | some m =>
          have hfm2 : firstMatchIn techNamesData
              ((c :: w2) ++ (' ' :: ('F' :: 'a' :: 's' :: 't' :: 'A' :: 'P' :: 'I' :: b)))
              = some m := by
            rw [List.cons_append]
            exact hfm
          have hlen : m.length ≤ (c :: w2).length :=
            firstMatchIn_length_le techNamesData techNames_no_space (c :: w2) _ m hfm2
          refine List.mem_cons_of_mem _ (ih (m.length - 1) (isWordChar c) ?_)
          simp only [List.length_cons] at hlen
          omega

/-- Over a text beginning `"Python learning "`, the scan emits `Python` from
the title (its boundaries lie inside the concrete prefix) and then proceeds
over the body from a fresh state after the space. -/
theorem techScan_python_start (X : List Char) :
    techScanA 0 false ("Python learning ".data ++ X)
      = "Python".data :: techScanA 0 false X := rfl

/-- Any slice the tech-name scan produces over a page's text is a member of
that page's extracted keyword list. -/
theorem mem_extract_learning_of_mem_tech {title content : String} {g : List Char}
    (h : g ∈ techScanA 0 false ((title ++ " " ++ content).data)) :
    (⟨g⟩ : String) ∈ extract_learning_keywords title content := by
  unfold extract_learning_keywords
  simp only []
  rw [List.mem_dedup]
  exact List.mem_append_right _ (List.mem_map_of_mem _ h)

/-- C8 counterexample: the body `"implemented FastAPIs"` contains the
substring `"implemented FastAPI"`, yet `FastAPI` is NOT extracted, because the
regex `\b(...)\b` requires a word boundary after the name and `s` is a word
character; only `Python` (from the title) is found. -/
theorem extract_learning_keywords_cex :
    containsL "implemented FastAPI".data "implemented FastAPIs".data = true ∧
    "Python" ∈ extract_learning_keywords "Python learning" "implemented FastAPIs" ∧
    "FastAPI" ∉ extract_learning_keywords "Python learning" "implemented FastAPIs" := by
  refine ⟨by decide, by decide, by decide⟩

/-- C8 amended: for every page titled `"Python learning"` whose body contains
`"implemented FastAPI"` anywhere — any prefix before it, any suffix after it
that is empty or starts with a non-word character (the trailing word boundary
the counterexample shows is necessary) — the case-insensitive allow-list scan
places both `"Python"` and `"FastAPI"` in the keyword set. -/
theorem extract_learning_keywords_amended (a b : List Char)
    (hb : isWordChar (b.headD '.') = false) :
    "Python" ∈ extract_learning_keywords "Python learning"
        ⟨a ++ ("implemented FastAPI".data ++ b)⟩ ∧
    "FastAPI" ∈ extract_learning_keywords "Python learning"
        ⟨a ++ ("implemented FastAPI".data ++ b)⟩ := by
  have htext : (("Python learning" ++ " " ++
      (⟨a ++ ("implemented FastAPI".data ++ b)⟩ : String)).data)
      = "Python learning ".data ++ (a ++ ("implemented FastAPI".data ++ b)) := rfl
  have hw : ((a ++ "implemented".data) ++
      (' ' :: 'F' :: 'a' :: 's' :: 't' :: 'A' :: 'P' :: 'I' :: b))
      = a ++ ("implemented FastAPI".data ++ b) := by
    have e : ("implemented".data ++
        (' ' :: 'F' :: 'a' :: 's' :: 't' :: 'A' :: 'P' :: 'I' :: b))
        = "implemented FastAPI".data ++ b := rfl
    rw [List.append_assoc, e]
  have hFa : "FastAPI".data ∈ techScanA 0 false
      (a ++ ("implemented FastAPI".data ++ b)) := by
    rw [← hw]
    exact techScan_reaches b hb (a ++ "implemented".data) 0 false (Nat.zero_le _)
  constructor
  · refine mem_extract_learning_of_mem_tech ?_
    rw [htext, techScan_python_start]
    exact List.mem_cons_self _ _
  · refine mem_extract_learning_of_mem_tech ?_
    rw [htext, techScan_python_start]
    exact List.mem_cons_of_mem _ hFa

/-- Witness for C8's amended theorem at the body
`"yesterday I implemented FastAPI today"`. -/
theorem extract_learning_keywords_amended_witness :
    "Python" ∈ extract_learning_keywords "Python learning"
        ⟨"yesterday I ".data ++ ("implemented FastAPI".data ++ " today".data)⟩ ∧
    "FastAPI" ∈ extract_learning_keywords "Python learning"
        ⟨"yesterday I ".data ++ ("implemented FastAPI".data ++ " today".data)⟩ :=
  extract_learning_keywords_amended "yesterday I ".data " today".data (by decide)

end ChoibenAssist
